import Mathlib

/-!
# Verification of the blogicum blog view layer

Shallow embedding of `src/blogicum/blog/views.py` (and the routes of
`src/blogicum/blog/urls.py`).  The relational store is modelled as lists of
rows; each Django class-based view is translated to a function from the
store, the requesting viewer and the URL parameters to a response together
with the (possibly updated) store.  `now()` is passed explicitly as a `Nat`
timestamp, and `get_object_or_404` becomes `List.find?` with `none` meaning
a NotFound response.
-/

/-- Modelled from the spec: the `User` row of the data model (`models.py` is
not part of the sources); identity with a username. -/
structure User where
  id : Nat
  username : String
deriving Repr, DecidableEq

/-- Modelled from the spec: the `Category` row `{slug, title, is_published}`
(`models.py` is not part of the sources). -/
structure Category where
  id : Nat
  slug : String
  title : String
  is_published : Bool
deriving Repr, DecidableEq

/-- Modelled from the spec: the `Post` row
`{id, title, body, pub_date, is_published, author, category, location?}`
(`models.py` is not part of the sources).  Foreign keys are stored as ids. -/
structure Post where
  id : Nat
  title : String
  text : String
  pub_date : Nat
  is_published : Bool
  author : Nat
  category : Nat
  location : Option Nat
deriving Repr, DecidableEq

/-- Modelled from the spec: the `Comment` row
`{id, text, created_at, author, post}` (`models.py` is not part of the
sources). -/
structure Comment where
  id : Nat
  text : String
  created_at : Nat
  author : Nat
  post : Nat
deriving Repr, DecidableEq

/-- The relational store reachable through the ORM: one list of rows per
table. -/
structure Store where
  users : List User
  categories : List Category
  posts : List Post
  comments : List Comment
deriving Repr, DecidableEq

/-- The requesting viewer: `none` is an anonymous request, `some u` an
authenticated user with id `u` (`request.user`). -/
abbrev Viewer := Option Nat

/-- Redirect targets used by the views (`reverse_lazy` / `redirect`). -/
inductive Route where
  | index
  | postDetail (pk : Nat)
  | profile (username : String)
  | login
deriving Repr, DecidableEq

/-- The outcome of a request, abstracted from HTTP: a NotFound error
(`get_object_or_404` failing), a redirect, or a rendered page. -/
inductive Response where
  | notFound
  | redirect (r : Route)
  | rendered
deriving Repr, DecidableEq

/-- `get_object_or_404(Post, pk=pk)`. -/
def Store.findPost (s : Store) (pk : Nat) : Option Post :=
  s.posts.find? (fun p => p.id == pk)

/-- `get_object_or_404(Comment, pk=comment_pk)`. -/
def Store.findComment (s : Store) (pk : Nat) : Option Comment :=
  s.comments.find? (fun c => c.id == pk)

/-- The join `category__is_published=True` on a post's category foreign key. -/
def categoryIsPublished (s : Store) (p : Post) : Bool :=
  match s.categories.find? (fun c => c.id == p.category) with
  | some c => c.is_published
  | none => false

/-- The filter of `GetPostsMixin.get_queryset`
(`views.py` lines 18-23): `is_published=True, pub_date__lte=now(),
category__is_published=True`. -/
def publiclyVisible (s : Store) (now : Nat) (p : Post) : Bool :=
  p.is_published && decide (p.pub_date ≤ now) && categoryIsPublished s p

/-- The `comment_count=Count('comments')` annotation attached by the listing
querysets. -/
def commentCount (s : Store) (p : Post) : Nat :=
  (s.comments.filter (fun c => c.post == p.id)).length

/-- The ordering `-pub_date`: `a` comes before `b` when `a` has the later
(or equal) publication date. -/
def pubDateGe (a b : Post) : Prop :=
  b.pub_date ≤ a.pub_date

instance : DecidableRel pubDateGe := fun _ _ => Nat.decLe _ _

instance : IsTotal Post pubDateGe :=
  ⟨fun a b => (Nat.le_total b.pub_date a.pub_date).imp id id⟩

instance : IsTrans Post pubDateGe :=
  ⟨fun _ _ _ h1 h2 => Nat.le_trans h2 h1⟩

/-- `order_by('-pub_date')`: the store returns the rows sorted by descending
publication date. -/
def sortPosts (l : List Post) : List Post :=
  List.insertionSort pubDateGe l

/-- Django pagination with 1-indexed pages: page `page` of a queryset with
`paginate_by = pageSize`. -/
def paginate (pageSize page : Nat) (l : List α) : List α :=
  (l.drop ((page - 1) * pageSize)).take pageSize

/-- `GetPostsMixin.get_queryset` applied to an already ordered queryset
(`views.py` lines 18-23). -/
def getPostsQueryset (s : Store) (now : Nat) (qs : List Post) : List Post :=
  qs.filter (fun p => publiclyVisible s now p)

/-- `PostListView` queryset (`views.py` lines 47-53): all posts ordered by
`-pub_date`, then the `GetPostsMixin` filter. -/
def postListQueryset (s : Store) (now : Nat) : List Post :=
  getPostsQueryset s now (sortPosts s.posts)

/-- One page of the index listing (`paginate_by = 10`). -/
def postListPage (s : Store) (now : Nat) (page : Nat) : List Post :=
  paginate 10 page (postListQueryset s now)

/-- `PostDetailView.get_object` (`views.py` lines 60-71): load the post by
pk, unconditionally for its author, through the `GetPostsMixin` filtered
queryset for anyone else; `none` is NotFound. -/
def postDetailGetObject (s : Store) (viewer : Viewer) (now pk : Nat) :
    Option Post :=
  match s.findPost pk with
  | none => none
  | some post =>
    if viewer == some post.author then some post
    else (getPostsQueryset s now s.posts).find? (fun p => p.id == pk)

/-- `CategoryPostsListView.get_queryset` (`views.py` lines 89-94): resolve
the category by `slug` with `is_published=True` (404 otherwise), then the
ordered `GetPostsMixin` queryset restricted to that category. -/
def categoryPostsQueryset (s : Store) (now : Nat) (slug : String) :
    Option (List Post) :=
  match s.categories.find? (fun c => c.slug == slug && c.is_published) with
  | none => none
  | some cat =>
    some ((getPostsQueryset s now (sortPosts s.posts)).filter
      (fun p => p.category == cat.id))

/-- One page of the category listing (`paginate_by = 10`). -/
def categoryPostsPage (s : Store) (now : Nat) (slug : String) (page : Nat) :
    Option (List Post) :=
  (categoryPostsQueryset s now slug).map (paginate 10 page)

/-- `ProfileListView.get_queryset` (`views.py` lines 109-121): resolve the
user by username (404 otherwise); all of that user's posts ordered by
`-pub_date`; when the viewer is not the profile owner, additionally filter
`is_published=True, pub_date__lte=now()` (note: no category filter here). -/
def profileQueryset (s : Store) (viewer : Viewer) (now : Nat)
    (username : String) : Option (List Post) :=
  match s.users.find? (fun u => u.username == username) with
  | none => none
  | some profile =>
    let posts := sortPosts (s.posts.filter (fun p => p.author == profile.id))
    if viewer == some profile.id then some posts
    else some (posts.filter
      (fun p => p.is_published && decide (p.pub_date ≤ now)))

/-- One page of the profile listing (`paginate_by = 10`). -/
def profilePage (s : Store) (viewer : Viewer) (now : Nat) (username : String)
    (page : Nat) : Option (List Post) :=
  (profileQueryset s viewer now username).map (paginate 10 page)

/-- Modelled from the spec: the user-editable fields of `PostForm`
(`forms.py` is not part of the sources); a valid submission carries the new
title, body text, publication date, category and location, while `id` and
`author` are never taken from the form. -/
structure PostFormData where
  title : String
  text : String
  pub_date : Nat
  category : Nat
  location : Option Nat
deriving Repr, DecidableEq

/-- Saving a bound `PostForm` over an existing instance. -/
def applyPostForm (d : PostFormData) (p : Post) : Post :=
  { p with title := d.title, text := d.text, pub_date := d.pub_date,
           category := d.category, location := d.location }

/-- The store after `form.save()` on the post with primary key `pk`. -/
def updatePostInStore (s : Store) (pk : Nat) (d : PostFormData) : Store :=
  let posts := s.posts.map (fun p => if p.id == pk then applyPostForm d p else p)
  { s with posts := posts }

/-- `PostUpdateView` (`views.py` lines 159-173): `dispatch` redirects an
unauthenticated viewer to the post's detail page; otherwise the object is
resolved inside `Post.objects.filter(author=request.user)` (404 when the
post is not the viewer's), and a successful save redirects to the detail
page of the edited post. -/
def postUpdateHandler (s : Store) (viewer : Viewer) (pk : Nat)
    (d : PostFormData) : Response × Store :=
  match viewer with
  | none => (Response.redirect (Route.postDetail pk), s)
  | some u =>
    match (s.posts.filter (fun p => p.author == u)).find?
        (fun p => p.id == pk) with
    | none => (Response.notFound, s)
    | some post =>
      (Response.redirect (Route.postDetail post.id), updatePostInStore s pk d)

/-- The value `PostDeleteView.get_object` hands back: either the loaded post
or a lazily reversed URL standing in for it. -/
inductive LoadedObject where
  | postObj (p : Post)
  | redirectUrl (r : Route)
deriving Repr, DecidableEq

/-- `PostDeleteView.get_object` (`views.py` lines 179-186): load the post by
pk from the unfiltered default queryset; when the viewer is not the author,
return `reverse_lazy('blog:post_detail', pk)` in place of the post. -/
def postDeleteGetObject (s : Store) (u pk : Nat) : Option LoadedObject :=
  match s.findPost pk with
  | none => none
  | some post =>
    if u == post.author then some (LoadedObject.postObj post)
    else some (LoadedObject.redirectUrl (Route.postDetail pk))

/-- The store after deleting the post with primary key `pk`; the store
cascades the deletion to the post's comments (spec §3, assumed store
behaviour). -/
def deletePostFromStore (s : Store) (pk : Nat) : Store :=
  { s with posts := s.posts.filter (fun p => p.id != pk),
           comments := s.comments.filter (fun c => c.post != pk) }

/-- `PostDeleteView` (`views.py` lines 176-186) under `LoginRequiredMixin`.
Modelled from the spec for the surrounding framework flow: a value returned
by `get_object` in place of the post is treated as the response (the
redirect object stands in for the entity, spec §4.4/§9), and the store
delete is only ever applied to an actually loaded post object. -/
def postDeleteHandler (s : Store) (viewer : Viewer) (pk : Nat) :
    Response × Store :=
  match viewer with
  | none => (Response.redirect Route.login, s)
  | some u =>
    match postDeleteGetObject s u pk with
    | none => (Response.notFound, s)
    | some (LoadedObject.postObj post) =>
      (Response.redirect Route.index, deletePostFromStore s post.id)
    | some (LoadedObject.redirectUrl r) => (Response.redirect r, s)

/-- The store after inserting a fresh comment row. -/
def addCommentToStore (s : Store) (newId : Nat) (text : String)
    (now u postId : Nat) : Store :=
  let cs := s.comments ++
    [{ id := newId, text := text, created_at := now, author := u,
       post := postId }]
  { s with comments := cs }

/-- `CommentCreateView` (`views.py` lines 189-213) under
`LoginRequiredMixin`: `form_valid` resolves
`get_object_or_404(Post, pk=pk, is_published=True)`, stores a new comment
with `post` and `author` taken from the context, and redirects to the
post's detail page.  `newId` and `now` are the id and `created_at`
timestamp the store assigns to the new row. -/
def commentCreateHandler (s : Store) (viewer : Viewer) (pk : Nat)
    (text : String) (now newId : Nat) : Response × Store :=
  match viewer with
  | none => (Response.redirect Route.login, s)
  | some u =>
    match s.posts.find? (fun p => p.id == pk && p.is_published) with
    | none => (Response.notFound, s)
    | some post =>
      (Response.redirect (Route.postDetail pk),
       addCommentToStore s newId text now u post.id)

/-- The value `CommentChangeMixin.get_object` hands back: either the loaded
comment or a redirect standing in for it. -/
inductive CommentObject where
  | commentObj (c : Comment)
  | redirectUrl (r : Route)
deriving Repr, DecidableEq

/-- `CommentChangeMixin.get_object` (`views.py` lines 38-44): resolve the
comment by `comment_pk` alone (the path's post id `pk` is not consulted);
when the viewer is not the comment's author, return
`redirect('blog:post_detail', pk)` in place of the comment. -/
def commentChangeGetObject (s : Store) (u pk comment_pk : Nat) :
    Option CommentObject :=
  match s.findComment comment_pk with
  | none => none
  | some c =>
    if u == c.author then some (CommentObject.commentObj c)
    else some (CommentObject.redirectUrl (Route.postDetail pk))

/-- The store after `form.save()` on the comment with id `cid`: its text is
replaced. -/
def updateCommentInStore (s : Store) (cid : Nat) (newText : String) : Store :=
  let cs := s.comments.map
    (fun x => if x.id == cid then { x with text := newText } else x)
  { s with comments := cs }

/-- The store after deleting the comment row with id `cid`. -/
def deleteCommentFromStore (s : Store) (cid : Nat) : Store :=
  let cs := s.comments.filter (fun x => x.id != cid)
  { s with comments := cs }

/-- `CommentUpdateView` (`views.py` lines 216-227) under
`LoginRequiredMixin`.  Modelled from the spec for the surrounding framework
flow: a redirect returned by `get_object` is treated as the response
without mutating (spec §4.5); for the author, `form_valid` saves the edited
text and redirects to the path's post detail page. -/
def commentUpdateHandler (s : Store) (viewer : Viewer) (pk comment_pk : Nat)
    (newText : String) : Response × Store :=
  match viewer with
  | none => (Response.redirect Route.login, s)
  | some u =>
    match commentChangeGetObject s u pk comment_pk with
    | none => (Response.notFound, s)
    | some (CommentObject.redirectUrl r) => (Response.redirect r, s)
    | some (CommentObject.commentObj c) =>
      (Response.redirect (Route.postDetail pk),
       updateCommentInStore s c.id newText)

/-- `CommentDeleteView` (`views.py` lines 230-238) under
`LoginRequiredMixin`.  Modelled from the spec for the surrounding framework
flow: a redirect returned by `get_object` is treated as the response
without deleting (spec §4.5); for the author, the comment row is deleted
and the response redirects to the path's post detail page. -/
def commentDeleteHandler (s : Store) (viewer : Viewer) (pk comment_pk : Nat) :
    Response × Store :=
  match viewer with
  | none => (Response.redirect Route.login, s)
  | some u =>
    match commentChangeGetObject s u pk comment_pk with
    | none => (Response.notFound, s)
    | some (CommentObject.redirectUrl r) => (Response.redirect r, s)
    | some (CommentObject.commentObj c) =>
      (Response.redirect (Route.postDetail pk), deleteCommentFromStore s c.id)

/-! ## Concrete example data used by witnesses and counterexamples -/

/-- Example user. -/
def exAlice : User := { id := 1, username := "alice" }

/-- Example user distinct from `exAlice`. -/
def exBob : User := { id := 2, username := "bob" }

/-- A published category. -/
def exPubCat : Category :=
  { id := 1, slug := "news", title := "News", is_published := true }

/-- An unpublished category. -/
def exHiddenCat : Category :=
  { id := 2, slug := "drafts", title := "Drafts", is_published := false }

/-- A published, past-dated post sitting in the unpublished category. -/
def exPostC1 : Post :=
  { id := 1, title := "a", text := "", pub_date := 0, is_published := true,
    author := 1, category := 2, location := none }

/-- Store for the profile-listing scenario: Alice owns a post whose category
is unpublished. -/
def exStoreC1 : Store :=
  { users := [exAlice], categories := [exPubCat, exHiddenCat],
    posts := [exPostC1], comments := [] }

/-- An unpublished post with id 5. -/
def exPostC2 : Post :=
  { id := 5, title := "h", text := "", pub_date := 0, is_published := false,
    author := 1, category := 1, location := none }

/-- Store for the detail scenario: post 5 exists but is unpublished. -/
def exStoreC2 : Store :=
  { users := [exAlice], categories := [exPubCat], posts := [exPostC2],
    comments := [] }

/-- 25 publicly visible posts (ids 1..25, pub dates 0..24). -/
def exPostsC3 : List Post :=
  (List.range 25).map (fun i =>
    { id := i + 1, title := "", text := "", pub_date := i,
      is_published := true, author := 1, category := 1, location := none })

/-- Store with 25 publicly visible posts. -/
def exStoreC3 : Store :=
  { users := [exAlice], categories := [exPubCat], posts := exPostsC3,
    comments := [] }

/-- A publicly visible post with id 5 authored by Alice. -/
def exPost5 : Post :=
  { id := 5, title := "t", text := "x", pub_date := 3, is_published := true,
    author := 1, category := 1, location := none }

/-- Store with Alice's post 5 and a second user Bob. -/
def exStoreC45 : Store :=
  { users := [exAlice, exBob], categories := [exPubCat], posts := [exPost5],
    comments := [] }

/-- A form submission carrying new field values. -/
def exForm : PostFormData :=
  { title := "t2", text := "y", pub_date := 4, category := 1, location := none }

/-- Bob's comment with id 3 attached to post 7. -/
def exComment : Comment :=
  { id := 3, text := "hi", created_at := 1, author := 2, post := 7 }

/-- Store whose comment 3 belongs to post 7 while the request path names
post 5. -/
def exStoreC7 : Store :=
  { users := [exAlice, exBob], categories := [exPubCat], posts := [exPost5],
    comments := [exComment] }

/-- A published but future-dated post with id 8 authored by Alice. -/
def exPostFuture : Post :=
  { id := 8, title := "f", text := "", pub_date := 1000, is_published := true,
    author := 1, category := 1, location := none }

/-- Store for the comment-on-hidden-post scenario. -/
def exStoreC10 : Store :=
  { users := [exAlice, exBob], categories := [exPubCat],
    posts := [exPostFuture], comments := [] }

/-! ## Helper lemmas -/

theorem mem_sortPosts {l : List Post} {p : Post} : p ∈ sortPosts l ↔ p ∈ l :=
  List.mem_insertionSort pubDateGe

theorem sorted_sortPosts (l : List Post) :
    List.Sorted pubDateGe (sortPosts l) :=
  List.sorted_insertionSort pubDateGe l

theorem sorted_filter {l : List Post} (f : Post → Bool)
    (h : List.Sorted pubDateGe l) : List.Sorted pubDateGe (l.filter f) :=
  List.Pairwise.filter f h

theorem paginate_length_le (n page : Nat) (l : List α) :
    (paginate n page l).length ≤ n := by
  simp only [paginate, List.length_take, List.length_drop]
  omega

theorem find?_filter_eq (l : List α) (f g : α → Bool) :
    (l.filter f).find? g = l.find? (fun x => g x && f x) := by
  induction l with
  | nil => rfl
  | cons x t ih =>
    cases hf : f x with
    | false =>
      cases hg : g x with
      | false => simp [List.filter_cons, hf, hg, List.find?_cons, ih]
      | true => simp [List.filter_cons, hf, hg, List.find?_cons, ih]
    | true =>
      cases hg : g x with
      | false => simp [List.filter_cons, hf, hg, List.find?_cons, ih]
      | true => simp [List.filter_cons, hf, hg, List.find?_cons]

theorem find?_and_none {κ : Type} [BEq κ] (key : α → κ) (q : α → Bool)
    (l : List α) (k : κ) (h : l.find? (fun x => key x == k) = none) :
    l.find? (fun x => key x == k && q x) = none := by
  rw [List.find?_eq_none] at h ⊢
  intro x hx
  have h1 := h x hx
  simp only [Bool.and_eq_true, not_and]
  intro hk
  exact absurd hk h1

theorem find?_key_and {κ : Type} [BEq κ] [LawfulBEq κ] (key : α → κ)
    (q : α → Bool) (l : List α) (k : κ) (a : α)
    (hnd : (l.map key).Nodup) (h : l.find? (fun x => key x == k) = some a) :
    l.find? (fun x => key x == k && q x) = if q a then some a else none := by
  induction l with
  | nil => simp at h
  | cons x t ih =>
    simp only [List.map_cons, List.nodup_cons] at hnd
    cases hk : (key x == k) with
    | true =>
      simp only [List.find?_cons, hk] at h
      obtain rfl : x = a := by injection h
      cases hq : q x with
      | false =>
        simp [List.find?_cons, hk, hq]
        intro y hy hkey
        exfalso
        apply hnd.1
        rw [List.mem_map]
        exact ⟨y, hy, by rw [hkey, eq_of_beq hk]⟩
      | true => simp [List.find?_cons, hk, hq]
    | false =>
      simp only [List.find?_cons, hk] at h
      simp only [List.find?_cons, hk, Bool.false_and]
      exact ih hnd.2 h

/-! ## C1: profile listing -/

/-- C1 (counterexample): the claim states that a viewer other than the
profile owner sees only posts satisfying the full publicly-visible
condition, including `category.is_published = true`.  In `exStoreC1`,
Alice's post sits in an unpublished category (so it is not publicly
visible), yet the anonymous profile listing for "alice" still returns it:
`ProfileListView.get_queryset` filters only on `is_published` and
`pub_date`. -/
theorem C1_profile_listing_counterexample :
    profileQueryset exStoreC1 none 10 "alice" = some [exPostC1] ∧
    exPostC1.is_published = true ∧ exPostC1.pub_date ≤ 10 ∧
    categoryIsPublished exStoreC1 exPostC1 = false ∧
    publiclyVisible exStoreC1 10 exPostC1 = false := by decide

/-- C1 (amended): resolving a username that matches no User fails with
NotFound; the owner sees every one of their posts unfiltered; any other
viewer (or anonymous) sees exactly that user's posts with
`is_published = true` and `pub_date <= now()` (the category's publication
state is not checked); in both cases ordered by `pub_date` descending with
page size 10. -/
theorem C1_profile_listing (s : Store) (viewer : Viewer) (now : Nat)
    (username : String) :
    (s.users.find? (fun u => u.username == username) = none →
      profileQueryset s viewer now username = none) ∧
    (∀ profile, s.users.find? (fun u => u.username == username) = some profile →
      ∃ l, profileQueryset s viewer now username = some l ∧
        List.Sorted pubDateGe l ∧
        (∀ p, p ∈ l ↔ p ∈ s.posts ∧ p.author = profile.id ∧
          (viewer = some profile.id ∨
            (p.is_published = true ∧ p.pub_date ≤ now))) ∧
        (∀ page, (paginate 10 page l).length ≤ 10)) := by
  constructor
  · intro h
    simp only [profileQueryset, h]
  · intro profile hp
    simp only [profileQueryset, hp]
    by_cases hv : viewer = some profile.id
    · refine ⟨sortPosts (s.posts.filter (fun p => p.author == profile.id)),
        by simp [hv], sorted_sortPosts _, ?_, fun page => paginate_length_le _ _ _⟩
      intro p
      simp [mem_sortPosts, List.mem_filter, hv]
    · refine ⟨(sortPosts (s.posts.filter (fun p => p.author == profile.id))).filter
          (fun p => p.is_published && decide (p.pub_date ≤ now)),
        by simp [beq_iff_eq, hv], sorted_filter _ (sorted_sortPosts _), ?_,
        fun page => paginate_length_le _ _ _⟩
      intro p
      simp [List.mem_filter, mem_sortPosts, hv, and_assoc]

/-- C1 (witness): the amended profile-listing theorem instantiated on
`exStoreC1` for an anonymous viewer. -/
theorem C1_profile_listing_witness :
    exStoreC1.users.find? (fun u => u.username == "alice") = some exAlice ∧
    (∃ l, profileQueryset exStoreC1 none 10 "alice" = some l ∧
      List.Sorted pubDateGe l ∧
      (∀ p, p ∈ l ↔ p ∈ exStoreC1.posts ∧ p.author = exAlice.id ∧
        ((none : Viewer) = some exAlice.id ∨
          (p.is_published = true ∧ p.pub_date ≤ 10))) ∧
      (∀ page, (paginate 10 page l).length ≤ 10)) :=
  ⟨by decide, (C1_profile_listing exStoreC1 none 10 "alice").2 exAlice (by decide)⟩

/-! ## C2: post detail -/

/-- C2: post detail resolution fails with NotFound when no post has the
requested id; the post's author gets the post unconditionally; any other
viewer (including anonymous) gets the post exactly when
`is_published = true`, `pub_date <= now()` and the category is published,
and NotFound otherwise. -/
theorem C2_post_detail (s : Store) (viewer : Viewer) (now pk : Nat)
    (hids : (s.posts.map Post.id).Nodup) :
    (s.posts.find? (fun p => p.id == pk) = none →
      postDetailGetObject s viewer now pk = none) ∧
    (∀ post, s.posts.find? (fun p => p.id == pk) = some post →
      (viewer = some post.author →
        postDetailGetObject s viewer now pk = some post) ∧
      (viewer ≠ some post.author →
        postDetailGetObject s viewer now pk =
          if publiclyVisible s now post then some post else none)) := by
  constructor
  · intro h
    simp only [postDetailGetObject, Store.findPost, h]
  · intro post hp
    constructor
    · intro hv
      simp [postDetailGetObject, Store.findPost, hp, hv]
    · intro hv
      have hbeq : (viewer == some post.author) = false := by
        rw [beq_eq_false_iff_ne]
        exact hv
      simp only [postDetailGetObject, Store.findPost, hp, hbeq, if_false,
        Bool.false_eq_true, getPostsQueryset]
      rw [find?_filter_eq]
      exact find?_key_and Post.id (fun p => publiclyVisible s now p)
        s.posts pk post hids hp

/-- C2 (witness): in `exStoreC2` post 5 exists but is unpublished; an
anonymous detail request for it resolves to NotFound, by the theorem. -/
theorem C2_post_detail_witness :
    (exStoreC2.posts.map Post.id).Nodup ∧
    postDetailGetObject exStoreC2 none 10 5 = none := by
  refine ⟨by decide, ?_⟩
  have h := ((C2_post_detail exStoreC2 none 10 5 (by decide)).2 exPostC2
    (by decide)).2 (by decide)
  rw [h]
  decide

/-! ## C3: index listing -/

/-- C3: the index listing contains exactly the publicly visible posts,
ordered by `pub_date` descending, with pages of at most 10 posts; when the
listing holds 25 publicly visible posts, page 1 has exactly 10, page 3 the
remaining 5, and the three pages partition the listing.  The queryset takes
no viewer argument, so the listing is the same for every viewer. -/
theorem C3_index_listing (s : Store) (now : Nat) :
    (∀ p, p ∈ postListQueryset s now ↔
      p ∈ s.posts ∧ publiclyVisible s now p = true) ∧
    List.Sorted pubDateGe (postListQueryset s now) ∧
    (∀ page, (postListPage s now page).length ≤ 10) ∧
    ((postListQueryset s now).length = 25 →
      (postListPage s now 1).length = 10 ∧
      (postListPage s now 3).length = 5 ∧
      postListPage s now 1 ++ postListPage s now 2 ++ postListPage s now 3 =
        postListQueryset s now) := by
  refine ⟨?_, ?_, ?_, ?_⟩
  · intro p
    simp [postListQueryset, getPostsQueryset, List.mem_filter, mem_sortPosts]
  · exact sorted_filter _ (sorted_sortPosts _)
  · intro page
    exact paginate_length_le _ _ _
  · intro h
    set l := postListQueryset s now with hl
    have h1 : postListPage s now 1 = l.take 10 := by
      norm_num [postListPage, paginate, hl]
    have h2 : postListPage s now 2 = (l.drop 10).take 10 := by
      norm_num [postListPage, paginate, hl]
    have h3 : postListPage s now 3 = (l.drop 20).take 10 := by
      norm_num [postListPage, paginate, hl]
    have e20 : (l.drop 20).take 10 = l.drop 20 :=
      List.take_of_length_le (by rw [List.length_drop, h]; omega)
    refine ⟨?_, ?_, ?_⟩
    · rw [h1, List.length_take, h]; omega
    · rw [h3, List.length_take, List.length_drop, h]; omega
    · rw [h1, h2, h3, e20]
      have key : (l.drop 10).take 10 ++ l.drop 20 = l.drop 10 := by
        have t := List.take_append_drop 10 (l.drop 10)
        rw [List.drop_drop] at t
        norm_num at t
        exact t
      rw [List.append_assoc, key, List.take_append_drop]

/-- C3 (witness): a store with 25 publicly visible posts, where the theorem
yields the 10/5 page split. -/
theorem C3_index_listing_witness :
    (postListQueryset exStoreC3 100).length = 25 ∧
    ((postListPage exStoreC3 100 1).length = 10 ∧
     (postListPage exStoreC3 100 3).length = 5 ∧
     postListPage exStoreC3 100 1 ++ postListPage exStoreC3 100 2 ++
       postListPage exStoreC3 100 3 = postListQueryset exStoreC3 100) :=
  ⟨by decide, (C3_index_listing exStoreC3 100).2.2.2 (by decide)⟩

/-! ## C4, C5: post update -/

theorem postUpdateHandler_authed (s : Store) (pk u : Nat) (d : PostFormData)
    (post : Post)
    (hids : (s.posts.map Post.id).Nodup)
    (hfind : s.posts.find? (fun p => p.id == pk) = some post) :
    postUpdateHandler s (some u) pk d =
      if post.author = u
      then (Response.redirect (Route.postDetail pk), updatePostInStore s pk d)
      else (Response.notFound, s) := by
  have hpk : post.id = pk := by
    have h1 := List.find?_some hfind
    simpa using h1
  have hres := find?_key_and Post.id (fun p => p.author == u) s.posts pk post
    hids hfind
  simp only [postUpdateHandler, find?_filter_eq, hres]
  by_cases hau : post.author = u
  · simp [hau, hpk]
  · simp [hau]

/-- C4: an unauthenticated edit request for post `pk` is answered with a
redirect to that post's detail page (not a login page); an authenticated
viewer who is not the author gets NotFound (the ownership filter is applied
at query level); the author's edit is applied and answered with a redirect
to the post's detail page. -/
theorem C4_post_update (s : Store) (pk u : Nat) (d : PostFormData)
    (post : Post)
    (hids : (s.posts.map Post.id).Nodup)
    (hfind : s.posts.find? (fun p => p.id == pk) = some post) :
    postUpdateHandler s none pk d =
      (Response.redirect (Route.postDetail pk), s) ∧
    (post.author ≠ u →
      postUpdateHandler s (some u) pk d = (Response.notFound, s)) ∧
    (post.author = u →
      postUpdateHandler s (some u) pk d =
        (Response.redirect (Route.postDetail pk), updatePostInStore s pk d)) := by
  refine ⟨rfl, ?_, ?_⟩
  · intro hne
    rw [postUpdateHandler_authed s pk u d post hids hfind, if_neg hne]
  · intro hau
    rw [postUpdateHandler_authed s pk u d post hids hfind, if_pos hau]

/-- C4 (witness): in `exStoreC45`, post 5 belongs to Alice (id 1); the
theorem instantiated for viewer Bob (id 2). -/
theorem C4_post_update_witness :
    ((exStoreC45.posts.map Post.id).Nodup ∧
     exStoreC45.posts.find? (fun p => p.id == 5) = some exPost5) ∧
    (postUpdateHandler exStoreC45 none 5 exForm =
       (Response.redirect (Route.postDetail 5), exStoreC45) ∧
     (exPost5.author ≠ 2 →
       postUpdateHandler exStoreC45 (some 2) 5 exForm =
         (Response.notFound, exStoreC45)) ∧
     (exPost5.author = 2 →
       postUpdateHandler exStoreC45 (some 2) 5 exForm =
         (Response.redirect (Route.postDetail 5),
          updatePostInStore exStoreC45 5 exForm))) :=
  ⟨⟨by decide, by decide⟩,
   C4_post_update exStoreC45 5 2 exForm exPost5 (by decide) (by decide)⟩

/-- C5 (counterexample): the claim states that an authenticated non-author's
edit request is answered with a redirect to the post's detail page.  In
`exStoreC45`, Bob (id 2) requesting an edit of Alice's post 5 gets NotFound
instead (while indeed nothing is mutated). -/
theorem C5_nonauthor_edit_counterexample :
    postUpdateHandler exStoreC45 (some 2) 5 exForm =
      (Response.notFound, exStoreC45) ∧
    (postUpdateHandler exStoreC45 (some 2) 5 exForm).1 ≠
      Response.redirect (Route.postDetail 5) := by decide

/-- C5 (amended): for every authenticated viewer and every post authored by
a different user, an edit request yields no mutation of the store and a
NotFound response (the claimed redirect only happens for unauthenticated
viewers). -/
theorem C5_nonauthor_edit (s : Store) (pk u : Nat) (d : PostFormData)
    (post : Post)
    (hids : (s.posts.map Post.id).Nodup)
    (hfind : s.posts.find? (fun p => p.id == pk) = some post)
    (hne : post.author ≠ u) :
    postUpdateHandler s (some u) pk d = (Response.notFound, s) := by
  rw [postUpdateHandler_authed s pk u d post hids hfind, if_neg hne]

/-- C5 (witness): the amended theorem instantiated for Bob editing Alice's
post 5. -/
theorem C5_nonauthor_edit_witness :
    ((exStoreC45.posts.map Post.id).Nodup ∧
     exStoreC45.posts.find? (fun p => p.id == 5) = some exPost5 ∧
     exPost5.author ≠ 2) ∧
    postUpdateHandler exStoreC45 (some 2) 5 exForm =
      (Response.notFound, exStoreC45) :=
  ⟨⟨by decide, by decide, by decide⟩,
   C5_nonauthor_edit exStoreC45 5 2 exForm exPost5 (by decide) (by decide)
     (by decide)⟩

/-! ## C6: post delete -/

/-- C6: `PostDeleteView.get_object` loads the post by id with no ownership
filter (the load succeeds even for a non-author); when the viewer is not
the author it returns a redirect object to the post's detail page in place
of the post, the handler answers with that redirect, and the post is still
in the store. -/
theorem C6_post_delete (s : Store) (u pk : Nat) (post : Post)
    (hfind : s.posts.find? (fun p => p.id == pk) = some post)
    (hne : post.author ≠ u) :
    postDeleteGetObject s u pk =
      some (LoadedObject.redirectUrl (Route.postDetail pk)) ∧
    postDeleteHandler s (some u) pk =
      (Response.redirect (Route.postDetail pk), s) ∧
    post ∈ (postDeleteHandler s (some u) pk).2.posts := by
  have hbeq : (u == post.author) = false := by
    rw [beq_eq_false_iff_ne]
    exact fun h => hne h.symm
  have hget : postDeleteGetObject s u pk =
      some (LoadedObject.redirectUrl (Route.postDetail pk)) := by
    simp [postDeleteGetObject, Store.findPost, hfind, hbeq]
  have hh : postDeleteHandler s (some u) pk =
      (Response.redirect (Route.postDetail pk), s) := by
    simp only [postDeleteHandler, hget]
  refine ⟨hget, hh, ?_⟩
  rw [hh]
  exact List.mem_of_find?_eq_some hfind

/-- C6 (witness): Bob (id 2) requesting deletion of Alice's post 5. -/
theorem C6_post_delete_witness :
    (exStoreC45.posts.find? (fun p => p.id == 5) = some exPost5 ∧
     exPost5.author ≠ 2) ∧
    (postDeleteGetObject exStoreC45 2 5 =
       some (LoadedObject.redirectUrl (Route.postDetail 5)) ∧
     postDeleteHandler exStoreC45 (some 2) 5 =
       (Response.redirect (Route.postDetail 5), exStoreC45) ∧
     exPost5 ∈ (postDeleteHandler exStoreC45 (some 2) 5).2.posts) :=
  ⟨⟨by decide, by decide⟩,
   C6_post_delete exStoreC45 2 5 exPost5 (by decide) (by decide)⟩

/-! ## C7: comment update and delete -/

/-- C7: the target comment is resolved by its own id alone — nothing links
the path's post id `pk` to `c.post` (the hypotheses allow them to differ
and the behaviour is the same); a non-author viewer is answered with a
redirect to the path's post detail page with the store untouched; the
author's edit or delete is applied and answered with a redirect to the
path's post detail page. -/
theorem C7_comment_change (s : Store) (u pk comment_pk : Nat) (t : String)
    (c : Comment)
    (hfind : s.comments.find? (fun x => x.id == comment_pk) = some c) :
    (u ≠ c.author →
      commentUpdateHandler s (some u) pk comment_pk t =
        (Response.redirect (Route.postDetail pk), s) ∧
      commentDeleteHandler s (some u) pk comment_pk =
        (Response.redirect (Route.postDetail pk), s)) ∧
    (u = c.author →
      commentUpdateHandler s (some u) pk comment_pk t =
        (Response.redirect (Route.postDetail pk),
         updateCommentInStore s c.id t) ∧
      commentDeleteHandler s (some u) pk comment_pk =
        (Response.redirect (Route.postDetail pk),
         deleteCommentFromStore s c.id)) := by
  constructor
  · intro hne
    have hbeq : (u == c.author) = false := by
      rw [beq_eq_false_iff_ne]
      exact hne
    have hget : commentChangeGetObject s u pk comment_pk =
        some (CommentObject.redirectUrl (Route.postDetail pk)) := by
      simp [commentChangeGetObject, Store.findComment, hfind, hbeq]
    exact ⟨by simp only [commentUpdateHandler, hget],
           by simp only [commentDeleteHandler, hget]⟩
  · intro hau
    have hget : commentChangeGetObject s u pk comment_pk =
        some (CommentObject.commentObj c) := by
      simp [commentChangeGetObject, Store.findComment, hfind, hau]
    exact ⟨by simp only [commentUpdateHandler, hget],
           by simp only [commentDeleteHandler, hget]⟩

/-- C7 (witness): comment 3 belongs to post 7 while the path names post 5
(the mismatch is not checked); Alice (id 1) is not the comment's author. -/
theorem C7_comment_change_witness :
    (exStoreC7.comments.find? (fun x => x.id == 3) = some exComment ∧
     exComment.post ≠ 5) ∧
    ((1 ≠ exComment.author →
       commentUpdateHandler exStoreC7 (some 1) 5 3 "zz" =
         (Response.redirect (Route.postDetail 5), exStoreC7) ∧
       commentDeleteHandler exStoreC7 (some 1) 5 3 =
         (Response.redirect (Route.postDetail 5), exStoreC7)) ∧
     (1 = exComment.author →
       commentUpdateHandler exStoreC7 (some 1) 5 3 "zz" =
         (Response.redirect (Route.postDetail 5),
          updateCommentInStore exStoreC7 exComment.id "zz") ∧
       commentDeleteHandler exStoreC7 (some 1) 5 3 =
         (Response.redirect (Route.postDetail 5),
          deleteCommentFromStore exStoreC7 exComment.id))) :=
  ⟨⟨by decide, by decide⟩,
   C7_comment_change exStoreC7 1 5 3 "zz" exComment (by decide)⟩

/-! ## C8, C10: comment create -/

theorem commentCreate_notFound (s : Store) (u pk now newId : Nat)
    (t : String)
    (h : s.posts.find? (fun p => p.id == pk && p.is_published) = none) :
    commentCreateHandler s (some u) pk t now newId = (Response.notFound, s) := by
  simp only [commentCreateHandler, h]

theorem commentCreate_success (s : Store) (u pk now newId : Nat)
    (t : String) (post : Post)
    (hids : (s.posts.map Post.id).Nodup)
    (hfind : s.posts.find? (fun p => p.id == pk) = some post)
    (hpub : post.is_published = true) :
    commentCreateHandler s (some u) pk t now newId =
      (Response.redirect (Route.postDetail pk),
       addCommentToStore s newId t now u pk) := by
  have hpk : post.id = pk := by
    have h1 := List.find?_some hfind
    simpa using h1
  have hres := find?_key_and Post.id Post.is_published s.posts pk post
    hids hfind
  have h2 : s.posts.find? (fun p => p.id == pk && p.is_published) =
      some post := by
    rw [hres, if_pos hpub]
  simp only [commentCreateHandler, h2, hpk]

/-- C8: comment creation by an authenticated viewer fails with NotFound
when the target post is absent or has `is_published = false`; when the post
exists with `is_published = true` (no condition on its category or
`pub_date`), a new comment row is stored with `post` the target post's id
and `author` the viewer, and the response redirects to the post's detail
page. -/
theorem C8_comment_create (s : Store) (u pk now newId : Nat) (t : String)
    (hids : (s.posts.map Post.id).Nodup) :
    (s.posts.find? (fun p => p.id == pk) = none →
      commentCreateHandler s (some u) pk t now newId =
        (Response.notFound, s)) ∧
    (∀ post, s.posts.find? (fun p => p.id == pk) = some post →
      (post.is_published = false →
        commentCreateHandler s (some u) pk t now newId =
          (Response.notFound, s)) ∧
      (post.is_published = true →
        commentCreateHandler s (some u) pk t now newId =
          (Response.redirect (Route.postDetail pk),
           addCommentToStore s newId t now u pk))) := by
  constructor
  · intro h
    exact commentCreate_notFound s u pk now newId t
      (find?_and_none Post.id Post.is_published s.posts pk h)
  · intro post hp
    constructor
    · intro hf
      have hres := find?_key_and Post.id Post.is_published s.posts pk post
        hids hp
      have h2 : s.posts.find? (fun p => p.id == pk && p.is_published) =
          none := by
        rw [hres, if_neg]
        simp [hf]
      exact commentCreate_notFound s u pk now newId t h2
    · intro ht
      exact commentCreate_success s u pk now newId t post hids hp ht

/-- C8 (witness): Bob comments on Alice's published post 5. -/
theorem C8_comment_create_witness :
    (exStoreC45.posts.map Post.id).Nodup ∧
    ((exStoreC45.posts.find? (fun p => p.id == 5) = none →
       commentCreateHandler exStoreC45 (some 2) 5 "nice" 20 9 =
         (Response.notFound, exStoreC45)) ∧
     (∀ post, exStoreC45.posts.find? (fun p => p.id == 5) = some post →
       (post.is_published = false →
         commentCreateHandler exStoreC45 (some 2) 5 "nice" 20 9 =
           (Response.notFound, exStoreC45)) ∧
       (post.is_published = true →
         commentCreateHandler exStoreC45 (some 2) 5 "nice" 20 9 =
           (Response.redirect (Route.postDetail 5),
            addCommentToStore exStoreC45 9 "nice" 20 2 5)))) :=
  ⟨by decide, C8_comment_create exStoreC45 2 5 20 9 "nice" (by decide)⟩

/-- C10: comment creation never checks the post's `pub_date` or its
category's publication state: for a post with `is_published = true` that is
nevertheless not publicly visible (future-dated or unpublished category),
an authenticated viewer who is not the author still creates a comment
successfully. -/
theorem C10_comment_on_hidden_post (s : Store) (u pk now newId : Nat)
    (t : String) (post : Post)
    (hids : (s.posts.map Post.id).Nodup)
    (hfind : s.posts.find? (fun p => p.id == pk) = some post)
    (hpub : post.is_published = true)
    (hhidden : publiclyVisible s now post = false)
    (_hne : post.author ≠ u) :
    commentCreateHandler s (some u) pk t now newId =
      (Response.redirect (Route.postDetail pk),
       addCommentToStore s newId t now u pk) ∧
    (now < post.pub_date ∨ categoryIsPublished s post = false) := by
  refine ⟨commentCreate_success s u pk now newId t post hids hfind hpub, ?_⟩
  cases hc : categoryIsPublished s post with
  | false => exact Or.inr rfl
  | true =>
    left
    have h2 : decide (post.pub_date ≤ now) = false := by
      rcases Bool.eq_false_or_eq_true (decide (post.pub_date ≤ now)) with h | h
      · exfalso
        rw [publiclyVisible, hpub, h, hc] at hhidden
        simp at hhidden
      · exact h
    simpa using h2

/-- C10 (witness): Bob comments on Alice's future-dated post 8, which is
published but not publicly visible at time 10. -/
theorem C10_comment_on_hidden_post_witness :
    ((exStoreC10.posts.map Post.id).Nodup ∧
     exStoreC10.posts.find? (fun p => p.id == 8) = some exPostFuture ∧
     exPostFuture.is_published = true ∧
     publiclyVisible exStoreC10 10 exPostFuture = false ∧
     exPostFuture.author ≠ 2) ∧
    (commentCreateHandler exStoreC10 (some 2) 8 "early" 10 4 =
       (Response.redirect (Route.postDetail 8),
        addCommentToStore exStoreC10 4 "early" 10 2 8) ∧
     (10 < exPostFuture.pub_date ∨
      categoryIsPublished exStoreC10 exPostFuture = false)) :=
  ⟨⟨by decide, by decide, by decide, by decide, by decide⟩,
   C10_comment_on_hidden_post exStoreC10 2 8 10 4 "early" exPostFuture
     (by decide) (by decide) (by decide) (by decide) (by decide)⟩

/-! ## C9: category listing -/

/-- C9: resolving a category slug fails with NotFound when no category has
that slug or the matching category is unpublished; otherwise the listing is
exactly the publicly visible posts of that category, ordered by `pub_date`
descending, with pages of at most 10 posts. -/
theorem C9_category_listing (s : Store) (now : Nat) (slug : String)
    (hslugs : (s.categories.map Category.slug).Nodup) :
    (s.categories.find? (fun c => c.slug == slug) = none →
      categoryPostsQueryset s now slug = none) ∧
    (∀ cat, s.categories.find? (fun c => c.slug == slug) = some cat →
      (cat.is_published = false → categoryPostsQueryset s now slug = none) ∧
      (cat.is_published = true →
        ∃ l, categoryPostsQueryset s now slug = some l ∧
          List.Sorted pubDateGe l ∧
          (∀ p, p ∈ l ↔ p ∈ s.posts ∧ publiclyVisible s now p = true ∧
            p.category = cat.id) ∧
          (∀ page, (paginate 10 page l).length ≤ 10))) := by
  constructor
  · intro h
    have h2 := find?_and_none Category.slug Category.is_published
      s.categories slug h
    simp only [categoryPostsQueryset, h2]
  · intro cat hc
    have hres := find?_key_and Category.slug Category.is_published
      s.categories slug cat hslugs hc
    constructor
    · intro hf
      have h2 : s.categories.find?
          (fun c => c.slug == slug && c.is_published) = none := by
        rw [hres, if_neg]
        simp [hf]
      simp only [categoryPostsQueryset, h2]
    · intro ht
      have h2 : s.categories.find?
          (fun c => c.slug == slug && c.is_published) = some cat := by
        rw [hres, if_pos ht]
      simp only [categoryPostsQueryset, h2]
      refine ⟨_, rfl, ?_, ?_, ?_⟩
      · exact sorted_filter _ (sorted_filter _ (sorted_sortPosts _))
      · intro p
        simp [getPostsQueryset, List.mem_filter, mem_sortPosts, and_assoc]
        tauto
      · intro page
        exact paginate_length_le _ _ _

/-- C9 (witness): in `exStoreC1`, slug "news" resolves to the published
category `exPubCat`. -/
theorem C9_category_listing_witness :
    ((exStoreC1.categories.map Category.slug).Nodup ∧
     exStoreC1.categories.find? (fun c => c.slug == "news") = some exPubCat ∧
     exPubCat.is_published = true) ∧
    (∃ l, categoryPostsQueryset exStoreC1 10 "news" = some l ∧
      List.Sorted pubDateGe l ∧
      (∀ p, p ∈ l ↔ p ∈ exStoreC1.posts ∧
        publiclyVisible exStoreC1 10 p = true ∧ p.category = exPubCat.id) ∧
      (∀ page, (paginate 10 page l).length ≤ 10)) :=
  ⟨⟨by decide, by decide, by decide⟩,
   ((C9_category_listing exStoreC1 10 "news" (by decide)).2 exPubCat
     (by decide)).2 (by decide)⟩
